import Mathlib

/-!
Shallow embedding of the session/controller/calendar core of the
homeassistant-fvm integration (files `custom_components/fvm/fvm_session.py`,
`custom_components/fvm/fvm_controller.py`, `custom_components/fvm/calendar.py`).

Modelling conventions:

* Python `datetime` values are naive local timestamps measured in microseconds
  (`Int`); dates parsed by `datetime.strptime(s, "%Y.%m.%d")` land on midnight
  of the proleptic-Gregorian ordinal day (the same day numbering as Python's
  `date.toordinal`).
* JSON values decoded by `aiohttp`'s `response.json()` are the inductive
  `Json`; a response body that is not decodable JSON is modelled as `none`.
* Network effects are an oracle environment `SessionEnv`: each HTTP call made
  by `FvmCustomerServiceSession` reads the corresponding `Except Err _` field
  (an `Except.error` models a network/decoding failure raised by that call).
* Computations run in `M α := List Ev × Except Err α`: an exception monad
  that also records a trace of resource events (session open/close and
  network calls), so that the connection-release behaviour of
  `async with FvmCustomerServiceSession() as session:` is visible.
* Python exceptions are the constructors of `Err`.  Following the spec's
  error taxonomy (§7): `parseError` stands for the exception raised when a
  CSRF token regex or a `strptime` date fails to match (`AttributeError` on
  `None.group` resp. `ValueError` in CPython), `protocolError` for a
  response body that cannot be decoded as JSON, `keyError`/`typeError` for
  Python `KeyError`/`TypeError` on malformed JSON shapes.
-/

/-- Error taxonomy of the embedded code (spec §7 plus the raw Python
exceptions the source can actually raise). -/
inductive Err where
  | networkError : Err
  | parseError : Err
  | protocolError : Err
  | keyError : String → Err
  | typeError : Err
deriving DecidableEq

/-- JSON values as decoded by Python's `json` module (numbers restricted to
integers, which is all the claims need). -/
inductive Json where
  | null : Json
  | bool : Bool → Json
  | num : Int → Json
  | str : String → Json
  | arr : List Json → Json
  | obj : List (String × Json) → Json

/-- Python truthiness of a decoded JSON value (`None`/`False`/`0`/`""`
and empty containers are falsy). -/
def truthy : Json → Bool
  | .null => false
  | .bool b => b
  | .num n => n != 0
  | .str s => !s.isEmpty
  | .arr xs => !xs.isEmpty
  | .obj fs => !fs.isEmpty

/-- Python dictionary subscript `j[k]` on a decoded JSON value: a `KeyError`
when the key is absent, a `TypeError` when the value is not an object. -/
def jget (j : Json) (k : String) : Except Err Json :=
  match j with
  | .obj fs =>
    match fs.find? (fun p => p.1 == k) with
    | some p => .ok p.2
    | none => .error (.keyError k)
  | _ => .error .typeError

/-- Resource/trace events emitted by the embedded session code. -/
inductive Ev where
  | openS : Ev
  | closeS : Ev
  | netCall : Ev
deriving DecidableEq, BEq

/-- The effect monad of the embedding: a trace of resource events together
with an exception-carrying result. -/
def M (α : Type) : Type := List Ev × Except Err α

/-- Monadic unit for `M`. -/
def M.pure {α : Type} (a : α) : M α := ([], .ok a)

/-- Monadic bind for `M`: traces concatenate, errors short-circuit. -/
def M.bind {α β : Type} (x : M α) (f : α → M β) : M β :=
  match x with
  | (t, .error e) => (t, .error e)
  | (t, .ok a) => (t ++ (f a).1, (f a).2)

instance : Monad M where
  pure := M.pure
  bind := M.bind

/-- Raising a Python exception. -/
def M.throw {α : Type} (e : Err) : M α := ([], .error e)

/-- Lifting a pure `Except` computation (no events). -/
def liftE {α : Type} (r : Except Err α) : M α := ([], r)

/-- One HTTP round-trip: emits a `netCall` event and yields the oracle's
answer for that call (`Except.error` = the call raised). -/
def netStep {α : Type} (r : Except Err α) : M α := ([Ev.netCall], r)

@[simp]
theorem M_bind_def {α β : Type} (x : M α) (f : α → M β) : x >>= f = M.bind x f := rfl

@[simp]
theorem M_bind_err {α β : Type} (t : List Ev) (e : Err) (f : α → M β) :
    M.bind (t, Except.error e) f = (t, Except.error e) := rfl

@[simp]
theorem M_bind_ok {α β : Type} (t : List Ev) (a : α) (f : α → M β) :
    M.bind (t, Except.ok a) f = (t ++ (f a).1, (f a).2) := rfl

@[simp]
theorem M_pure_def {α : Type} (a : α) : (pure a : M α) = ([], Except.ok a) := rfl

/-- The result component of a bind is the `Except`-level bind of the result
components. -/
theorem M_snd_bind {α β : Type} (x : M α) (f : α → M β) :
    (M.bind x f).2 = match x.2 with
      | .error e => .error e
      | .ok a => (f a).2 := by
  obtain ⟨t, r⟩ := x
  cases r <;> rfl

/-- Oracle environment: the answers of the remote portal for the (at most)
six HTTP calls one controller operation can make, in source order. -/
structure SessionEnv where
  rootPage : Except Err String
  loginPageBody : Except Err String
  loginRespBody : Except Err (Option Json)
  locationsBody : Except Err (Option Json)
  readingPageBody : Except Err String
  readingRespBody : Except Err (Option Json)

/-! ### CSRF token extraction (fvm_session.py, the `re.search` in
`post_login` lines 74-78 and `get_dictation_and_reading_times` lines 131-136)

The regex is
`<input name="__RequestVerificationToken" type="hidden" value="(.*)" />`
searched with `re.search` (leftmost match) and `flags=re.MULTILINE` (which
only affects `^`/`$`, not `.`); `.` does not match `'\n'` and `(.*)` is
greedy, so the capture runs to the last `" />` on the same line. -/

/-- Literal regex text before the capture group. -/
def tokenPrefixPattern : List Char :=
  "<input name=\"__RequestVerificationToken\" type=\"hidden\" value=\"".data

/-- Literal regex text after the capture group. -/
def tokenSuffixPattern : List Char := "\" />".data

/-- Index of the last occurrence of `tokenSuffixPattern` in a list
(position of the greedy capture's right end). -/
def lastSuffixIndex : List Char → Option Nat
  | [] => none
  | c :: rest =>
    match lastSuffixIndex rest with
    | some j => some (j + 1)
    | none => if tokenSuffixPattern.isPrefixOf (c :: rest) then some 0 else none

/-- Attempt to match the token regex anchored at the head of `s`:
the literal prefix, then the greedy dot-star capture (stopping at the end of
the line, since `.` does not match a newline), then the literal suffix. -/
def tryMatchHere (s : List Char) : Option (List Char) :=
  if tokenPrefixPattern.isPrefixOf s then
    match lastSuffixIndex ((s.drop tokenPrefixPattern.length).takeWhile (fun c => c ≠ '\n')) with
    | some j => some (((s.drop tokenPrefixPattern.length).takeWhile (fun c => c ≠ '\n')).take j)
    | none => none
  else none

/-- `re.search` for the token regex: try each start position left to right
and return the first (leftmost) full match's capture. -/
def searchTok : List Char → Option (List Char)
  | [] => tryMatchHere []
  | c :: rest =>
    match tryMatchHere (c :: rest) with
    | some t => some t
    | none => searchTok rest

/-- Token extraction from a response body (`re.search(...).group(1)` without
the final `.group`, which is modelled at the call sites). -/
def extractToken (s : String) : Option String :=
  (searchTok s.data).map (fun cs => String.mk cs)

/-! ### Proleptic-Gregorian date arithmetic (Python `datetime`)

`datetime.strptime(s, '%Y.%m.%d')` produces a naive datetime at midnight;
we represent naive datetimes as microseconds since day 1 of Python's
`date.toordinal` day numbering (0001-01-01 has ordinal 1). -/

/-- Gregorian leap-year test. -/
def isLeapYear (y : Nat) : Bool :=
  (y % 4 == 0 && y % 100 != 0) || y % 400 == 0

/-- Number of days of month `m` in year `y`. -/
def daysInMonth (y m : Nat) : Nat :=
  if m = 2 then (if isLeapYear y then 29 else 28)
  else if m = 4 ∨ m = 6 ∨ m = 9 ∨ m = 11 then 30
  else 31

/-- Days in all years strictly before year `y` (y ≥ 1). -/
def daysBeforeYear (y : Nat) : Nat :=
  (y - 1) * 365 + (y - 1) / 4 - (y - 1) / 100 + (y - 1) / 400

/-- Days in the months of year `y` strictly before month `m`. -/
def daysBeforeMonth (y m : Nat) : Nat :=
  ((List.range (m - 1)).map (fun i => daysInMonth y (i + 1))).sum

/-- Python `date(y, m, d).toordinal()`. -/
def toOrdinal (y m d : Nat) : Nat :=
  daysBeforeYear y + daysBeforeMonth y m + d

/-- Microseconds per day (the resolution of Python `datetime`). -/
def dayUS : Int := 86400000000

/-- The naive datetime at midnight of date `y-m-d`, in microseconds. -/
def dateUS (y m d : Nat) : Int := (toOrdinal y m d : Int) * dayUS

/-- Uncurried `dateUS`. -/
def dateUS3 : Nat × Nat × Nat → Int
  | (y, m, d) => dateUS y m d

/-- All characters are ASCII digits. -/
def allDigits (cs : List Char) : Bool := cs.all Char.isDigit

/-- Decimal value of a digit string. -/
def digitsVal (cs : List Char) : Nat :=
  cs.foldl (fun acc c => acc * 10 + (c.toNat - 48)) 0

/-- CPython `datetime.strptime(s, '%Y.%m.%d')`, returning the parsed
`(year, month, day)` or `none` where CPython raises `ValueError`.

CPython compiles the format to the regex
`(?P<Y>\d\d\d\d)\.(?P<m>1[0-2]|0[1-9]|[1-9])\.(?P<d>3[01]|[12]\d|0[1-9]|[1-9])`,
requires the whole input to be consumed, and then the `datetime` constructor
validates the day against the month length.  Because the two dots are
mandatory separators this is equivalent to: split on `'.'` into exactly
three all-digit groups of widths 4 / 1-2 / 1-2, with month in 1..12, day
≥ 1, year ≥ 1 (`datetime.MINYEAR`) and day ≤ `daysInMonth`. -/
def strptimeYMD (s : List Char) : Option (Nat × Nat × Nat) :=
  match s.splitOn '.' with
  | [ys, ms, ds] =>
    if ys.length = 4 ∧ allDigits ys ∧
        (ms.length = 1 ∨ ms.length = 2) ∧ allDigits ms ∧
        (ds.length = 1 ∨ ds.length = 2) ∧ allDigits ds then
      let y := digitsVal ys
      let m := digitsVal ms
      let d := digitsVal ds
      if 1 ≤ y ∧ 1 ≤ m ∧ m ≤ 12 ∧ 1 ≤ d ∧ d ≤ daysInMonth y m then
        some (y, m, d)
      else none
    else none
  | _ => none

/-- `strptimeYMD` composed with the conversion to a naive datetime. -/
def strptimeUS (s : List Char) : Option Int :=
  (strptimeYMD s).map dateUS3

/-! ### Value records (fvm_controller.py lines 15-134) -/

/-- `ReadingTime` (fvm_controller.py lines 15-74): start/end are the naive
datetimes produced by `strptime`, `mode` is whatever JSON value the record's
`LEOMOD` field held. -/
structure ReadingTime where
  start : Int
  «end» : Int
  mode : Json

/-- `LocationAndMeter` (fvm_controller.py lines 77-134): the three JSON
field values passed to the constructor. -/
structure LocationAndMeter where
  location_name : Json
  location_id : Json
  meter_serial_number : Json

/-! ### FvmCustomerServiceSession (fvm_session.py) -/

/-- `get_root_page` (fvm_session.py lines 39-49): one GET of the root URL. -/
def get_root_page (env : SessionEnv) : M String :=
  netStep env.rootPage

/-- The value of `login_result['Success'] and login_result['Object']['Success']`
(fvm_session.py line 90): Python `and` returns the left operand when it is
falsy (without evaluating the right), otherwise the right operand. -/
def login_success_value (j : Json) : Except Err Json := do
  let s ← jget j "Success"
  if truthy s then
    let o ← jget j "Object"
    jget o "Success"
  else
    pure s

/-- `post_login` (fvm_session.py lines 51-90): GET the login page, scrape the
CSRF token (`AttributeError` on a missing match, classified `parseError` per
the spec's taxonomy), POST the form, decode the response as JSON
(`protocolError` when the body is not JSON) and return the Python value of
the `and` expression. -/
def post_login (env : SessionEnv) : M Json := do
  let body ← netStep env.loginPageBody
  match extractToken body with
  | none => M.throw .parseError
  | some _login_verification_token => do
    let resp ← netStep env.loginRespBody
    match resp with
    | none => M.throw .protocolError
    | some login_result => liftE (login_success_value login_result)

/-- `get_locations_and_serial_numbers` (fvm_session.py lines 92-107): one GET
decoded as JSON. -/
def get_locations_and_serial_numbers (env : SessionEnv) : M Json := do
  let resp ← netStep env.locationsBody
  match resp with
  | none => M.throw .protocolError
  | some j => pure j

/-- The POST body of fvm_session.py line 147: the f-string
`'{{"param": {{"I_ANLAGE": "{anlage}", "I_SERGE": "{serge}"}}}}'`, i.e. the
two arguments spliced verbatim (no JSON escaping) into the literal template. -/
def readingTimesRequestBody (anlage serge : String) : String :=
  "\x7b\"param\": \x7b\"I_ANLAGE\": \"" ++ anlage ++ "\", \"I_SERGE\": \"" ++ serge ++
    "\"\x7d\x7d"

/-- `get_dictation_and_reading_times` of the session (fvm_session.py lines
109-149): GET the priming page, scrape a fresh CSRF token from it, POST the
verbatim JSON body with the token in a `VerificationToken` header, decode
the response as JSON. -/
def sess_get_dictation_and_reading_times (env : SessionEnv) (anlage serge : String) :
    M Json := do
  let text ← netStep env.readingPageBody
  match extractToken text with
  | none => M.throw .parseError
  | some _verification_token => do
    let _data := readingTimesRequestBody anlage serge
    let resp ← netStep env.readingRespBody
    match resp with
    | none => M.throw .protocolError
    | some j => pure j

/-- The `async with FvmCustomerServiceSession() as session:` block
(fvm_session.py lines 27-37): `__aenter__` acquires the connection,
`__aexit__` releases it on every exit path (normal return or exception),
exactly once. -/
def withSession {α : Type} (body : M α) : M α :=
  (Ev.openS :: body.1 ++ [Ev.closeS], body.2)

/-! ### FvmController (fvm_controller.py lines 136-211) -/

/-- One element of the `get_locations_and_meters` list comprehension
(fvm_controller.py lines 167-175): `LocationAndMeter(location['FOGYH_MN'],
location['ANLAGE'], location['SERGE'])`, with constructor arguments
evaluated left to right. -/
def mkLocationAndMeter (location : Json) : Except Err LocationAndMeter := do
  let n ← jget location "FOGYH_MN"
  let a ← jget location "ANLAGE"
  let s ← jget location "SERGE"
  pure ⟨n, a, s⟩

/-- One element of the `get_dictation_and_reading_times` list comprehension
(fvm_controller.py lines 205-209): `ReadingTime(strptime(r['LEOIDOSZAK'][:10],
'%Y.%m.%d'), strptime(r['LEOIDOSZAK'][11:22], '%Y.%m.%d'), r['LEOMOD'])`.
Slicing a non-string raises `TypeError`; a failed `strptime` raises
`ValueError`, classified `parseError` per the spec's taxonomy. -/
def parseReading (reading : Json) : Except Err ReadingTime := do
  let leo ← jget reading "LEOIDOSZAK"
  match leo with
  | .str s =>
    match strptimeYMD (s.data.take 10) with
    | none => .error .parseError
    | some d1 =>
      match strptimeYMD ((s.data.drop 11).take 11) with
      | none => .error .parseError
      | some d2 => do
        let mode ← jget reading "LEOMOD"
        pure ⟨dateUS3 d1, dateUS3 d2, mode⟩
  | _ => .error .typeError

/-- The comparison Python's `sorted(..., key=lambda reading: reading.start)`
sorts by (fvm_controller.py line 210). -/
def rle (a b : ReadingTime) : Prop := a.start ≤ b.start

instance : DecidableRel rle := fun a b => inferInstanceAs (Decidable (a.start ≤ b.start))

instance : IsTotal ReadingTime rle := ⟨fun a b => Int.le_total a.start b.start⟩

instance : IsTrans ReadingTime rle := ⟨fun _ _ _ h1 h2 => le_trans h1 h2⟩

/-- The suite inside the `async with` of
`FvmController.get_locations_and_meters` (fvm_controller.py lines 164-175).
When `post_login` returns a falsy value the `if` body is skipped and the
function falls through, returning Python `None` (modelled `none`). -/
def get_locations_and_meters_body (env : SessionEnv) : M (Option (List LocationAndMeter)) := do
  let _root ← get_root_page env
  let loginVal ← post_login env
  if truthy loginVal then do
    let locations ← get_locations_and_serial_numbers env
    let fh ← liftE (jget locations "FogyHely")
    let tf ← liftE (jget fh "T_FOGYH")
    match tf with
    | .arr items => do
      let lms ← liftE (items.mapM mkLocationAndMeter)
      pure (some lms)
    | _ => M.throw .typeError
  else
    pure none

/-- `FvmController.get_locations_and_meters` (fvm_controller.py lines
155-175): the suite above run inside the scoped session. -/
def get_locations_and_meters (env : SessionEnv) : M (Option (List LocationAndMeter)) :=
  withSession (get_locations_and_meters_body env)

/-- The suite inside the `async with` of
`FvmController.get_dictation_and_reading_times` (fvm_controller.py lines
197-211).  Python's `sorted` is a stable sort; it is modelled by
`List.insertionSort rle`, which is extensionally that unique stable
ascending sort.  On a falsy login the function falls through and returns
Python `None`. -/
def get_dictation_and_reading_times_body (env : SessionEnv)
    (location_id meter_serial_number : String) : M (Option (List ReadingTime)) := do
  let _root ← get_root_page env
  let loginVal ← post_login env
  if truthy loginVal then do
    let reading_data ← sess_get_dictation_and_reading_times env location_id
      meter_serial_number
    let dm ← liftE (jget reading_data "DataModel")
    let idx ← liftE (jget dm "LeolvDiktIdoszakok")
    match idx with
    | .arr items => do
      let ws ← liftE (items.mapM parseReading)
      pure (some (List.insertionSort rle ws))
    | _ => M.throw .typeError
  else
    pure none

/-- `FvmController.get_dictation_and_reading_times` (fvm_controller.py
lines 196-211): the suite above run inside the scoped session. -/
def get_dictation_and_reading_times (env : SessionEnv)
    (location_id meter_serial_number : String) : M (Option (List ReadingTime)) :=
  withSession (get_dictation_and_reading_times_body env location_id meter_serial_number)

/-! ### Calendar windowing (calendar.py lines 58-99)

The calendar entity's query bounds are timezone-aware datetimes; the code
converts them with `.astimezone(tz.tzlocal()).replace(tzinfo=None)`, i.e. to
the local wall-clock instant with the offset dropped and the time-of-day
kept.  An aware bound is modelled by its UTC microsecond timestamp together
with the local zone's offset `zoneOffset` (in microseconds), so the
conversion is `utc + zoneOffset`. -/

/-- `async_update` (calendar.py lines 58-66): the "next" event is the first
element of the controller's (start-sorted) list, or `None` when the list is
empty; the current time plays no role. -/
def async_update (times : List ReadingTime) : Option ReadingTime :=
  if times.length = 0 then none else times.head?

/-- The `for reading_time in ...: if overlap: result.append(...)` loop of
`async_get_events` (calendar.py lines 91-99), with the bounds already
converted to naive local datetimes `s` and `e`.  `(earliest_end -
latest_start).days` is Python `timedelta.days`, a floor division of the
microsecond difference by one day. -/
def eventsLoop (s e : Int) : List ReadingTime → List ReadingTime
  | [] => []
  | rt :: rest =>
    let latest_start := max s rt.start
    let earliest_end := min e rt.«end»
    if 0 < Int.fdiv (earliest_end - latest_start) dayUS + 1 then
      rt :: eventsLoop s e rest
    else
      eventsLoop s e rest

/-- `async_get_events` (calendar.py lines 68-99) restricted to its pure
windowing logic: convert both bounds to naive local datetimes, then keep
the windows the loop accepts (each kept window is turned into a
`CalendarEvent` 1-1 by `_get_event`; we return the windows themselves). -/
def async_get_events (zoneOffset : Int) (times : List ReadingTime)
    (start_date end_date : Int) : List ReadingTime :=
  eventsLoop (start_date + zoneOffset) (end_date + zoneOffset) times

/-! ### Claim-side (spec-worded) definitions, for refinement comparison -/

/-- Stated from the spec's words for claim C1 (spec §4.3 `nextUpcoming`):
drop every window whose `end < now`, then return the first of the rest by
ascending `start`, or `none`. -/
def nextUpcomingSpec (times : List ReadingTime) (now : Int) : Option ReadingTime :=
  (List.insertionSort rle (times.filter (fun rt => decide (¬ rt.«end» < now)))).head?

/-- Stated from the spec's words for claim C2 (spec §4.3 `overlapping`):
normalize both bounds to a local calendar day (strip the offset, then the
time-of-day), keep windows with `(earliestEnd - latestStart).days + 1 > 0`. -/
def overlappingSpec (zoneOffset : Int) (times : List ReadingTime)
    (start_date end_date : Int) : List ReadingTime :=
  let s := Int.fdiv (start_date + zoneOffset) dayUS * dayUS
  let e := Int.fdiv (end_date + zoneOffset) dayUS * dayUS
  times.filter (fun rt =>
    decide (0 < Int.fdiv (min e rt.«end» - max s rt.start) dayUS + 1))

/-! ### A JSON (RFC 8259) well-formedness checker

Used to state the consequence half of claim C10: the transmitted POST body
is not well-formed JSON for some inputs.  Each parser consumes its
production and returns the remaining input; `none` means a syntax error.
Recursion is bounded by a fuel parameter. -/

/-- Skip JSON insignificant whitespace. -/
def skipWs : List Char → List Char
  | c :: rest =>
    if c = ' ' ∨ c = '\n' ∨ c = '\t' ∨ c = '\r' then skipWs rest else c :: rest
  | [] => []

/-- Consume a literal keyword tail. -/
def stripLit (lit : String) (s : List Char) : Option (List Char) :=
  if lit.data.isPrefixOf s then some (s.drop lit.data.length) else none

/-- Hexadecimal digit test. -/
def isHexDigit (c : Char) : Bool :=
  c.isDigit ∨ ('a' ≤ c ∧ c ≤ 'f') ∨ ('A' ≤ c ∧ c ≤ 'F')

/-- Consume the optional exponent part of a JSON number. -/
def jsonExpPart (s : List Char) : Option (List Char) :=
  match s with
  | c :: rest =>
    if c = 'e' ∨ c = 'E' then
      match rest with
      | d :: rest2 =>
        if d = '+' ∨ d = '-' then
          match rest2 with
          | d2 :: _ => if d2.isDigit then some (rest2.dropWhile Char.isDigit) else none
          | [] => none
        else if d.isDigit then some (rest.dropWhile Char.isDigit)
        else none
      | [] => none
    else some s
  | [] => some []

/-- Consume the optional fraction part, then the exponent part. -/
def jsonFracPart (s : List Char) : Option (List Char) :=
  match s with
  | '.' :: rest =>
    match rest with
    | d :: _ => if d.isDigit then jsonExpPart (rest.dropWhile Char.isDigit) else none
    | [] => none
  | _ => jsonExpPart s

/-- Consume the integer part of a JSON number (no leading zeros), then the
fraction/exponent parts. -/
def jsonIntRest (s : List Char) : Option (List Char) :=
  match s with
  | c :: rest =>
    if c = '0' then jsonFracPart rest
    else if c.isDigit then jsonFracPart (rest.dropWhile Char.isDigit)
    else none
  | [] => none

/-- Consume a JSON number. -/
def jsonNumberP (s : List Char) : Option (List Char) :=
  match s with
  | '-' :: rest => jsonIntRest rest
  | _ => jsonIntRest s

/-- Consume the body of a JSON string after the opening quote. -/
def jsonStringP : Nat → List Char → Option (List Char)
  | 0, _ => none
  | fuel + 1, s =>
    match s with
    | [] => none
    | c :: rest =>
      if c = '"' then some rest
      else if c = '\\' then
        match rest with
        | e :: rest2 =>
          if e = '"' ∨ e = '\\' ∨ e = '/' ∨ e = 'b' ∨ e = 'f' ∨ e = 'n' ∨ e = 'r' ∨
              e = 't' then
            jsonStringP fuel rest2
          else if e = 'u' then
            match rest2 with
            | h1 :: h2 :: h3 :: h4 :: rest3 =>
              if isHexDigit h1 ∧ isHexDigit h2 ∧ isHexDigit h3 ∧ isHexDigit h4 then
                jsonStringP fuel rest3
              else none
            | _ => none
          else none
        | [] => none
      else if c.toNat < 32 then none
      else jsonStringP fuel rest

mutual

/-- Consume one JSON value. -/
def jsonValueP : Nat → List Char → Option (List Char)
  | 0, _ => none
  | fuel + 1, s =>
    match skipWs s with
    | [] => none
    | c :: rest =>
      if c = '\x7b' then
        match skipWs rest with
        | d :: rest2 => if d = '\x7d' then some rest2 else jsonMembersP fuel (d :: rest2)
        | [] => none
      else if c = '[' then
        match skipWs rest with
        | d :: rest2 => if d = ']' then some rest2 else jsonElementsP fuel (d :: rest2)
        | [] => none
      else if c = '"' then jsonStringP (fuel + 1) rest
      else if c = 'n' then stripLit "ull" rest
      else if c = 't' then stripLit "rue" rest
      else if c = 'f' then stripLit "alse" rest
      else if c = '-' ∨ c.isDigit then jsonNumberP (c :: rest)
      else none

/-- Consume the members of a non-empty JSON object, up to and including the
closing brace. -/
def jsonMembersP : Nat → List Char → Option (List Char)
  | 0, _ => none
  | fuel + 1, s =>
    match skipWs s with
    | c :: rest =>
      if c = '"' then
        match jsonStringP (fuel + 1) rest with
        | some r1 =>
          match skipWs r1 with
          | ':' :: r2 =>
            match jsonValueP fuel r2 with
            | some r3 =>
              match skipWs r3 with
              | ',' :: r4 => jsonMembersP fuel r4
              | d :: r4 => if d = '\x7d' then some r4 else none
              | [] => none
            | none => none
          | _ => none
        | none => none
      else none
    | [] => none

/-- Consume the elements of a non-empty JSON array, up to and including the
closing bracket. -/
def jsonElementsP : Nat → List Char → Option (List Char)
  | 0, _ => none
  | fuel + 1, s =>
    match jsonValueP fuel s with
    | some r =>
      match skipWs r with
      | ',' :: r2 => jsonElementsP fuel r2
      | ']' :: r2 => some r2
      | _ => none
    | none => none

end

/-- A string is a well-formed JSON text: one value, then only whitespace. -/
def jsonWF (s : String) : Bool :=
  match jsonValueP (s.length + 1) s.data with
  | some r => (skipWs r).isEmpty
  | none => false

/-! ## Claims -/

/-- A login-page body containing a CSRF token, for concrete evaluations. -/
def tokenHtml : String :=
  "<input name=\"__RequestVerificationToken\" type=\"hidden\" value=\"abc123\" />"

/-! ### C1 -/

/-- The window 2024-01-01 .. 2024-01-05 of the spec's `nextUpcoming` example. -/
def wJan : ReadingTime := ⟨dateUS 2024 1 1, dateUS 2024 1 5, Json.str "A"⟩

/-- The window 2024-02-01 .. 2024-02-05 of the spec's `nextUpcoming` example. -/
def wFeb : ReadingTime := ⟨dateUS 2024 2 1, dateUS 2024 2 5, Json.str "A"⟩

/-- C1: the code evaluated at the spec's own example refutes the claim.
`async_update` (calendar.py lines 58-66) picks the first window of the
sorted list unconditionally — it never consults the current time — so on
windows `[(2024-01-01, 2024-01-05), (2024-02-01, 2024-02-05)]` with
`now = 2024-01-10` it yields the January window, whose end precedes `now`,
whereas the claimed filtering (`nextUpcomingSpec`, stated from the spec's
words) yields the February window. -/
theorem c1_code_evaluation :
    async_update [wJan, wFeb] = some wJan ∧
    wJan.«end» < dateUS 2024 1 10 ∧
    nextUpcomingSpec [wJan, wFeb] (dateUS 2024 1 10) = some wFeb :=
  ⟨rfl, by decide, rfl⟩

/-! ### C7 -/

/-- An environment in which every HTTP call succeeds but the portal answers
the login POST with `{"Success": false}` (invalid credentials). -/
def envAuthFail : SessionEnv :=
  { rootPage := .ok ""
    loginPageBody := .ok tokenHtml
    loginRespBody := .ok (some (Json.obj [("Success", Json.bool false)]))
    locationsBody := .ok none
    readingPageBody := .ok tokenHtml
    readingRespBody := .ok none }

/-- C7: when `post_login` returns a falsy value, both controller operations
fall through their `if` without an explicit return (fvm_controller.py lines
165 and 198) and produce Python `None` — an ordinary return value, not a
raised `AuthenticationError`. -/
theorem c7_code_evaluation :
    (get_locations_and_meters envAuthFail).2 = .ok none ∧
    (get_dictation_and_reading_times envAuthFail "anlage1" "serge1").2 = .ok none :=
  ⟨rfl, rfl⟩

/-! ### C2 -/

/-- The window 2024-day-1 .. day-5 (any day numbering works for the calendar
logic; windows start at midnight). -/
def wC2 : ReadingTime := ⟨dayUS, 5 * dayUS, Json.str "A"⟩

/-- C2 counterexample: with the local zone at offset 0, a query range whose
start is noon of day 5 and whose end is day 10, and the window days 1..5,
the code (`async_get_events`, calendar.py lines 86-99) keeps the
time-of-day of the bounds and excludes the window (the floored day
difference is `-1`), while the claimed day-normalized comparison
(`overlappingSpec`, stated from the spec's words) includes it — so the
claimed result and the code's result differ. -/
theorem c2_counterexample :
    async_get_events 0 [wC2] (5 * dayUS + 43200000000) (10 * dayUS) = [] ∧
    overlappingSpec 0 [wC2] (5 * dayUS + 43200000000) (10 * dayUS) = [wC2] :=
  ⟨rfl, rfl⟩

/-- C2 amended: `async_get_events` converts both bounds to local wall-clock
time and drops the offset but keeps the time-of-day; it returns, in input
order (hence the empty list on empty input), exactly the windows with
`(min(endBound, w.end) - max(startBound, w.start)).days + 1 > 0`, where
`.days` is the floor division of the exact difference by one day. -/
theorem c2_amended_filter :
    ∀ (zoneOffset : Int) (times : List ReadingTime) (start_date end_date : Int),
      async_get_events zoneOffset times start_date end_date =
        times.filter (fun rt =>
          decide (0 < Int.fdiv (min (end_date + zoneOffset) rt.«end» -
            max (start_date + zoneOffset) rt.start) dayUS + 1)) := by
  intro z times sd ed
  induction times with
  | nil => rfl
  | cons rt rest ih =>
    unfold async_get_events at ih ⊢
    unfold eventsLoop
    simp only [List.filter_cons]
    by_cases h : 0 < Int.fdiv (min (ed + z) rt.«end» - max (sd + z) rt.start) dayUS + 1
    · simp [h, ih]
    · simp [h, ih]

/-! ### C10 -/

/-- Template text before the first inserted argument. -/
def readingBodyPre : String := "\x7b\"param\": \x7b\"I_ANLAGE\": \""

/-- Template text between the two inserted arguments. -/
def readingBodyMid : String := "\", \"I_SERGE\": \""

/-- Template text after the second inserted argument. -/
def readingBodyPost : String := "\"\x7d\x7d"

/-- C10: the POST body (fvm_session.py line 147) is exactly the literal
template with `locationId` and `meterSerial` spliced in verbatim — no JSON
escaping — so ordinary inputs give well-formed JSON but an input containing
a double quote (or a trailing backslash) yields a body that is not
well-formed JSON. -/
theorem c10_request_body :
    (∀ anlage serge : String,
      (readingTimesRequestBody anlage serge).data =
        readingBodyPre.data ++ anlage.data ++ readingBodyMid.data ++ serge.data ++
          readingBodyPost.data) ∧
    jsonWF (readingTimesRequestBody "11" "22") = true ∧
    jsonWF (readingTimesRequestBody "7\"" "8") = false ∧
    jsonWF (readingTimesRequestBody "a\\" "b") = false := by
  refine ⟨?_, rfl, rfl, rfl⟩
  intro a s
  simp [readingTimesRequestBody, readingBodyPre, readingBodyMid, readingBodyPost]

/-! ### Helper lemmas on the effect monads -/

@[simp]
theorem except_bind_ok {α β : Type} (a : α) (f : α → Except Err β) :
    (Except.ok a >>= f) = f a := rfl

@[simp]
theorem except_bind_err {α β : Type} (e : Err) (f : α → Except Err β) :
    ((Except.error e : Except Err α) >>= f) = Except.error e := rfl

@[simp]
theorem except_pure_def {α : Type} (a : α) : (pure a : Except Err α) = Except.ok a := rfl

@[simp]
theorem withSession_fst {α : Type} (b : M α) :
    (withSession b).1 = Ev.openS :: b.1 ++ [Ev.closeS] := rfl

@[simp]
theorem withSession_snd {α : Type} (b : M α) : (withSession b).2 = b.2 := rfl

@[simp]
theorem liftE_snd {α : Type} (r : Except Err α) : (liftE r).2 = r := rfl

@[simp]
theorem netStep_snd {α : Type} (r : Except Err α) : (netStep r).2 = r := rfl

/-- Inversion of a successful `parseReading`: the produced window is built
from the two `strptime`d fixed slices of the record's `LEOIDOSZAK` string
and the record's `LEOMOD` value. -/
theorem parseReading_ok_inv (reading : Json) (w : ReadingTime)
    (h : parseReading reading = .ok w) :
    ∃ (s : String) (d1 d2 : Nat × Nat × Nat),
      jget reading "LEOIDOSZAK" = .ok (Json.str s) ∧
      strptimeYMD (s.data.take 10) = some d1 ∧
      strptimeYMD ((s.data.drop 11).take 11) = some d2 ∧
      w.start = dateUS3 d1 ∧ w.«end» = dateUS3 d2 ∧
      jget reading "LEOMOD" = .ok w.mode := by
  unfold parseReading at h
  cases hleo : jget reading "LEOIDOSZAK" with
  | error e => rw [hleo] at h; simp at h
  | ok leo =>
    rw [hleo] at h
    simp only [except_bind_ok] at h
    split at h
    · rename_i s
      split at h
      · simp at h
      · rename_i d1 hd1
        split at h
        · simp at h
        · rename_i d2 hd2
          cases hm : jget reading "LEOMOD" with
          | error e => rw [hm] at h; simp at h
          | ok mode =>
            rw [hm] at h
            simp only [except_bind_ok, except_pure_def] at h
            injection h with h
            exact ⟨s, d1, d2, rfl, hd1, hd2, by rw [← h], by rw [← h], by rw [← h]⟩
    · simp at h

/-- Inversion of a successful `mapM` over `Except`: every output element is
the image of some input element. -/
theorem mapM_ok_mem {α β : Type} (f : α → Except Err β) :
    ∀ (rs : List α) (ws : List β), rs.mapM f = .ok ws →
      ∀ w ∈ ws, ∃ r ∈ rs, f r = .ok w := by
  intro rs
  induction rs with
  | nil =>
    intro ws h w hw
    simp only [List.mapM_nil, except_pure_def] at h
    injection h with h
    rw [← h] at hw
    simp at hw
  | cons r rest ih =>
    intro ws h w hw
    rw [List.mapM_cons] at h
    cases hr : f r with
    | error e => rw [hr] at h; simp at h
    | ok b =>
      rw [hr] at h
      simp only [except_bind_ok] at h
      cases hrest : rest.mapM f with
      | error e => rw [hrest] at h; simp at h
      | ok bs =>
        rw [hrest] at h
        simp only [except_bind_ok, except_pure_def] at h
        injection h with h
        rw [← h] at hw
        rcases List.mem_cons.mp hw with hw | hw
        · exact ⟨r, List.mem_cons_self r rest, by rw [hr, hw]⟩
        · obtain ⟨r', hr', hfr'⟩ := ih bs hrest w hw
          exact ⟨r', List.mem_cons_of_mem r hr', hfr'⟩

/-- Inversion of a successful session-level reading-times fetch: the
returned JSON is the decoded body of the final POST. -/
theorem sess_get_ok_inv (env : SessionEnv) (a s : String) (j : Json)
    (h : (sess_get_dictation_and_reading_times env a s).2 = .ok j) :
    env.readingRespBody = .ok (some j) := by
  unfold sess_get_dictation_and_reading_times at h
  simp only [M_bind_def, M_snd_bind, netStep_snd] at h
  split at h
  · simp at h
  · split at h
    · simp [M.throw] at h
    · simp only [M_bind_def, M_snd_bind, netStep_snd] at h
      split at h
      · simp at h
      · rename_i o ho
        split at h
        · simp [M.throw] at h
        · simp only [M_pure_def] at h
          injection h with h
          rw [ho, h]

/-- Inversion of a successful `get_dictation_and_reading_times`: the list
is the stable ascending sort of the windows parsed, in response order, from
the records of the decoded response. -/
theorem get_dict_success_inv (env : SessionEnv) (loc ser : String)
    (lst : List ReadingTime)
    (h : (get_dictation_and_reading_times env loc ser).2 = .ok (some lst)) :
    ∃ (j : Json) (recs : List Json) (ws : List ReadingTime),
      env.readingRespBody = .ok (some j) ∧
      (jget j "DataModel" >>= fun dm => jget dm "LeolvDiktIdoszakok") =
        .ok (Json.arr recs) ∧
      recs.mapM parseReading = .ok ws ∧
      lst = List.insertionSort rle ws := by
  unfold get_dictation_and_reading_times get_dictation_and_reading_times_body
    get_root_page at h
  simp only [withSession_snd, M_bind_def, M_snd_bind, netStep_snd, liftE_snd] at h
  split at h
  · simp at h
  · split at h
    · simp at h
    · rename_i v hlogin
      split at h
      · simp only [M_bind_def, M_snd_bind, netStep_snd, liftE_snd] at h
        split at h
        · simp at h
        · rename_i reading_data hsess
          split at h
          · simp at h
          · rename_i dm hdm
            split at h
            · simp at h
            · rename_i idx hidx
              split at h
              · rename_i items
                simp only [M_bind_def, M_snd_bind, liftE_snd] at h
                split at h
                · simp at h
                · rename_i ws hmap
                  simp only [M_pure_def] at h
                  injection h with h
                  injection h with h
                  exact ⟨reading_data, items, ws,
                    sess_get_ok_inv env loc ser reading_data hsess,
                    by rw [hdm, except_bind_ok, hidx],
                    hmap, h.symm⟩
              · simp [M.throw] at h
      · simp [M.pure] at h

/-! ### C3 -/

/-- Stable insertion keeps the sublist of windows with any fixed start key
unchanged: an element is inserted after every strictly smaller key and
before the first equal-or-larger one. -/
theorem filter_orderedInsert (k : Int) (x : ReadingTime) (l : List ReadingTime) :
    (List.orderedInsert rle x l).filter (fun w => decide (w.start = k)) =
      if x.start = k then x :: l.filter (fun w => decide (w.start = k))
      else l.filter (fun w => decide (w.start = k)) := by
  induction l with
  | nil =>
    by_cases hx : x.start = k <;> simp [List.orderedInsert, List.filter, hx]
  | cons y l ih =>
    by_cases hr : rle x y
    · by_cases hx : x.start = k <;> simp [List.orderedInsert, hr, List.filter_cons, hx]
    · have hy : y.start < x.start := lt_of_not_le hr
      by_cases hx : x.start = k
      · have hyk : ¬ y.start = k := by rw [← hx]; exact ne_of_lt hy
        simp [List.orderedInsert, hr, List.filter_cons, hx, hyk, ih]
      · simp [List.orderedInsert, hr, List.filter_cons, hx, ih]

/-- The insertion sort used to model Python's stable `sorted` preserves,
for each start key, the original subsequence of windows with that key. -/
theorem filter_insertionSort (k : Int) (l : List ReadingTime) :
    (List.insertionSort rle l).filter (fun w => decide (w.start = k)) =
      l.filter (fun w => decide (w.start = k)) := by
  induction l with
  | nil => rfl
  | cons x l ih =>
    by_cases hx : x.start = k <;>
      simp [List.insertionSort, filter_orderedInsert, ih, List.filter_cons, hx]

/-- C3: every list returned by `get_dictation_and_reading_times`
(fvm_controller.py lines 204-211) is non-decreasing in `start`, and for
every start key the windows with that key appear exactly as in the
response-order list parsed from the fetched records — i.e. the sort is
stable with no secondary key. -/
theorem c3_sorted_stable :
    ∀ (env : SessionEnv) (loc ser : String) (lst : List ReadingTime),
      (get_dictation_and_reading_times env loc ser).2 = .ok (some lst) →
      List.Sorted rle lst ∧
      ∀ (j : Json) (recs : List Json) (ws : List ReadingTime),
        env.readingRespBody = .ok (some j) →
        (jget j "DataModel" >>= fun dm => jget dm "LeolvDiktIdoszakok") =
          .ok (Json.arr recs) →
        recs.mapM parseReading = .ok ws →
        ∀ k : Int, lst.filter (fun w => decide (w.start = k)) =
          ws.filter (fun w => decide (w.start = k)) := by
  intro env loc ser lst h
  obtain ⟨j, recs, ws, hresp, hchain, hmap, hlst⟩ := get_dict_success_inv env loc ser lst h
  subst hlst
  refine ⟨List.sorted_insertionSort rle ws, ?_⟩
  intro j' recs' ws' hresp' hchain' hmap' k
  rw [hresp] at hresp'
  injection hresp' with hj
  injection hj with hj
  subst hj
  rw [hchain] at hchain'
  injection hchain' with hrecs
  injection hrecs with hrecs
  subst hrecs
  rw [hmap] at hmap'
  injection hmap' with hws
  subst hws
  exact filter_insertionSort k ws

/-- Record 2024-02-01..05 mode B (first in response order). -/
def jC3rec1 : Json :=
  Json.obj [("LEOIDOSZAK", Json.str "2024.02.01-2024.02.05"), ("LEOMOD", Json.str "B")]

/-- Record 2024-01-01..05 mode A1 (second in response order). -/
def jC3rec2 : Json :=
  Json.obj [("LEOIDOSZAK", Json.str "2024.01.01-2024.01.05"), ("LEOMOD", Json.str "A1")]

/-- Record 2024-01-01..10 mode A2 (third in response order, same start as
the second). -/
def jC3rec3 : Json :=
  Json.obj [("LEOIDOSZAK", Json.str "2024.01.01-2024.01.10"), ("LEOMOD", Json.str "A2")]

/-- The records of the C3 witness response. -/
def recsC3 : List Json := [jC3rec1, jC3rec2, jC3rec3]

/-- The C3 witness response JSON. -/
def jC3 : Json := Json.obj [("DataModel", Json.obj [("LeolvDiktIdoszakok", Json.arr recsC3)])]

/-- A login response accepted by the portal. -/
def loginOkJson : Json :=
  Json.obj [("Success", Json.bool true), ("Object", Json.obj [("Success", Json.bool true)])]

/-- Environment for the C3 witness: login succeeds and the reading-times
POST returns `jC3`. -/
def envC3 : SessionEnv :=
  { rootPage := .ok ""
    loginPageBody := .ok tokenHtml
    loginRespBody := .ok (some loginOkJson)
    locationsBody := .ok none
    readingPageBody := .ok tokenHtml
    readingRespBody := .ok (some jC3) }

/-- The windows of `recsC3` in response order (unsorted). -/
def wsC3 : List ReadingTime :=
  [⟨dateUS 2024 2 1, dateUS 2024 2 5, Json.str "B"⟩,
   ⟨dateUS 2024 1 1, dateUS 2024 1 5, Json.str "A1"⟩,
   ⟨dateUS 2024 1 1, dateUS 2024 1 10, Json.str "A2"⟩]

/-- The list `get_dictation_and_reading_times` actually returns on `envC3`:
ascending starts, the two equal-start windows in their response order. -/
def lstC3 : List ReadingTime :=
  [⟨dateUS 2024 1 1, dateUS 2024 1 5, Json.str "A1"⟩,
   ⟨dateUS 2024 1 1, dateUS 2024 1 10, Json.str "A2"⟩,
   ⟨dateUS 2024 2 1, dateUS 2024 2 5, Json.str "B"⟩]

/-- C3 witness: the theorem applied to a concrete three-record response
with two equal-start records. -/
theorem c3_sorted_stable_witness :
    List.Sorted rle lstC3 ∧
    lstC3.filter (fun w => decide (w.start = dateUS 2024 1 1)) =
      wsC3.filter (fun w => decide (w.start = dateUS 2024 1 1)) := by
  have h := c3_sorted_stable envC3 "anlage1" "serge1" lstC3 rfl
  exact ⟨h.1, h.2 jC3 recsC3 wsC3 rfl rfl rfl (dateUS 2024 1 1)⟩

/-! ### C4 -/

/-- C4: for a record whose `LEOIDOSZAK` is a string, a successfully built
window takes its start from characters [0,10) and its end from characters
[11,22) of that string, both parsed by `strptime` with pattern `%Y.%m.%d`
(rendered `YYYY.MM.DD` in the spec), and its mode from `LEOMOD`; and when
either date segment fails to parse, the record fails with the spec's
`ParseError` (Python `ValueError`). -/
theorem c4_record_parsing :
    ∀ (reading : Json) (s : String), jget reading "LEOIDOSZAK" = .ok (Json.str s) →
      (∀ w, parseReading reading = .ok w →
        ∃ d1 d2, strptimeYMD (s.data.take 10) = some d1 ∧
          strptimeYMD ((s.data.drop 11).take 11) = some d2 ∧
          w.start = dateUS3 d1 ∧ w.«end» = dateUS3 d2 ∧
          jget reading "LEOMOD" = .ok w.mode) ∧
      ((strptimeYMD (s.data.take 10) = none ∨
          strptimeYMD ((s.data.drop 11).take 11) = none) →
        parseReading reading = .error Err.parseError) := by
  intro reading s hleo
  constructor
  · intro w hw
    obtain ⟨s', d1, d2, hleo', hd1, hd2, hstart, hend, hmode⟩ :=
      parseReading_ok_inv reading w hw
    rw [hleo] at hleo'
    injection hleo' with hs
    injection hs with hs
    subst hs
    exact ⟨d1, d2, hd1, hd2, hstart, hend, hmode⟩
  · intro hfail
    unfold parseReading
    rw [hleo]
    simp only [except_bind_ok]
    cases hd1 : strptimeYMD (s.data.take 10) with
    | none => rfl
    | some d1 =>
      cases hfail with
      | inl h1 => rw [hd1] at h1; exact absurd h1 (by simp)
      | inr h2 => rw [h2]

/-- A well-formed raw record. -/
def recC4 : Json :=
  Json.obj [("LEOIDOSZAK", Json.str "2024.01.15-2024.02.15"), ("LEOMOD", Json.str "02")]

/-- The window `recC4` parses to. -/
def wC4 : ReadingTime := ⟨dateUS 2024 1 15, dateUS 2024 2 15, Json.str "02"⟩

/-- A raw record whose first date segment does not match the pattern. -/
def recC4bad : Json :=
  Json.obj [("LEOIDOSZAK", Json.str "2024.XX.15-2024.02.15"), ("LEOMOD", Json.str "02")]

/-- C4 witness: the theorem applied to a concrete parseable record and to a
concrete record with a malformed date segment. -/
theorem c4_record_parsing_witness :
    (∃ d1 d2, strptimeYMD ("2024.01.15-2024.02.15".data.take 10) = some d1 ∧
      strptimeYMD (("2024.01.15-2024.02.15".data.drop 11).take 11) = some d2 ∧
      wC4.start = dateUS3 d1 ∧ wC4.«end» = dateUS3 d2 ∧
      jget recC4 "LEOMOD" = .ok wC4.mode) ∧
    parseReading recC4bad = .error Err.parseError := by
  constructor
  · exact (c4_record_parsing recC4 "2024.01.15-2024.02.15" rfl).1 wC4 rfl
  · exact (c4_record_parsing recC4bad "2024.XX.15-2024.02.15" rfl).2 (Or.inl rfl)

/-! ### C5 -/

/-- A login response whose `Success` is the truthy number 1 (not the boolean
`true`) while `Object.Success` is `true`. -/
def jC5 : Json :=
  Json.obj [("Success", Json.num 1), ("Object", Json.obj [("Success", Json.bool true)])]

/-- Environment whose login POST is answered with `jC5`. -/
def envC5 : SessionEnv :=
  { rootPage := .ok ""
    loginPageBody := .ok tokenHtml
    loginRespBody := .ok (some jC5)
    locationsBody := .ok none
    readingPageBody := .ok ""
    readingRespBody := .ok none }

/-- C5 counterexample: on the JSON `{"Success": 1, "Object": {"Success":
true}}` — a shape other than bool/bool — `post_login` neither raises a
`ProtocolError` nor refuses: Python's truthy `and` makes it return `true`
even though `Success` is not `true`, refuting both the claimed
"returns true iff `Success == true` and `Object.Success == true`" and the
claimed "any other response shape is a `ProtocolError`". -/
theorem c5_counterexample :
    (post_login envC5).2 = .ok (Json.bool true) ∧
    envC5.loginRespBody = .ok (some jC5) ∧
    jget jC5 "Success" = .ok (Json.num 1) :=
  ⟨rfl, rfl, rfl⟩

/-- C5 amended: `post_login` evaluates the response with Python truthiness:
(i) on boolean `Success`/`Object.Success` it returns their conjunction —
in particular the ordinary value `false`, not an exception, on invalid
credentials; (ii) a falsy `Success` is returned as-is without consulting
`Object`; (iii) a truthy `Success` makes the call return the value of
`Object.Success` (whatever it is); (iv) a response body that is not
decodable JSON raises the spec's `ProtocolError`; (v) a decodable body's
value is exactly `login_success_value` of the decoded JSON (so other
shapes flow through truthiness or raise the pertinent key/type error, not
necessarily `ProtocolError`). -/
theorem c5_amended_login_semantics :
    (∀ (j : Json) (b1 b2 : Bool), jget j "Success" = .ok (Json.bool b1) →
      (jget j "Object" >>= fun o => jget o "Success") = .ok (Json.bool b2) →
      login_success_value j = .ok (Json.bool (b1 && b2))) ∧
    (∀ (j : Json) (v : Json), jget j "Success" = .ok v → truthy v = false →
      login_success_value j = .ok v) ∧
    (∀ (j : Json) (v : Json), jget j "Success" = .ok v → truthy v = true →
      login_success_value j = (jget j "Object" >>= fun o => jget o "Success")) ∧
    (∀ (env : SessionEnv) (body : String), env.loginPageBody = .ok body →
      (∃ t, extractToken body = some t) → env.loginRespBody = .ok none →
      (post_login env).2 = .error Err.protocolError) ∧
    (∀ (env : SessionEnv) (body : String) (j : Json), env.loginPageBody = .ok body →
      (∃ t, extractToken body = some t) → env.loginRespBody = .ok (some j) →
      (post_login env).2 = login_success_value j) := by
  refine ⟨?_, ?_, ?_, ?_, ?_⟩
  · intro j b1 b2 h1 h2
    unfold login_success_value
    rw [h1]
    simp only [except_bind_ok]
    cases b1 with
    | false => simp [truthy]
    | true => simp [truthy, h2]
  · intro j v h1 h2
    unfold login_success_value
    rw [h1]
    simp [h2]
  · intro j v h1 h2
    unfold login_success_value
    rw [h1]
    simp [h2]
  · intro env body h1 ht h2
    obtain ⟨t, ht⟩ := ht
    unfold post_login
    simp only [M_bind_def, M_snd_bind, netStep_snd, h1, ht, h2]
    rfl
  · intro env body j h1 ht h2
    obtain ⟨t, ht⟩ := ht
    unfold post_login
    simp only [M_bind_def, M_snd_bind, netStep_snd, h1, ht, h2]
    rfl

/-- The all-true login response. -/
def jC5true : Json := loginOkJson

/-- A login response with `Object.Success` false (invalid credentials). -/
def jC5inv : Json :=
  Json.obj [("Success", Json.bool true), ("Object", Json.obj [("Success", Json.bool false)])]

/-- Environment whose login POST body is not decodable JSON. -/
def envC5nojson : SessionEnv :=
  { rootPage := .ok ""
    loginPageBody := .ok tokenHtml
    loginRespBody := .ok none
    locationsBody := .ok none
    readingPageBody := .ok ""
    readingRespBody := .ok none }

/-- C5 witness: the amended theorem applied at concrete responses — both
booleans true gives `true`, `Object.Success` false gives the ordinary
`false`, a non-JSON body gives `ProtocolError`. -/
theorem c5_amended_login_semantics_witness :
    login_success_value jC5true = .ok (Json.bool true) ∧
    login_success_value jC5inv = .ok (Json.bool false) ∧
    (post_login envC5nojson).2 = .error Err.protocolError := by
  refine ⟨?_, ?_, ?_⟩
  · exact c5_amended_login_semantics.1 jC5true true true rfl rfl
  · exact c5_amended_login_semantics.1 jC5inv true false rfl rfl
  · exact c5_amended_login_semantics.2.2.2.1 envC5nojson tokenHtml rfl ⟨"abc123", rfl⟩ rfl

/-! ### C9 -/

/-- A raw record whose `LEOIDOSZAK` encodes the later date first. -/
def recC9bad : Json :=
  Json.obj [("LEOIDOSZAK", Json.str "2024.05.10-2024.01.15"), ("LEOMOD", Json.str "02")]

/-- Environment whose reading-times response holds only `recC9bad`. -/
def envC9bad : SessionEnv :=
  { rootPage := .ok ""
    loginPageBody := .ok tokenHtml
    loginRespBody := .ok (some loginOkJson)
    locationsBody := .ok none
    readingPageBody := .ok tokenHtml
    readingRespBody := .ok (some (Json.obj [("DataModel",
      Json.obj [("LeolvDiktIdoszakok", Json.arr [recC9bad])])])) }

/-- The window `recC9bad` parses to — its end precedes its start. -/
def wC9bad : ReadingTime := ⟨dateUS 2024 5 10, dateUS 2024 1 15, Json.str "02"⟩

/-- C9 counterexample: nothing in `get_dictation_and_reading_times`
(fvm_controller.py lines 204-211) checks the two parsed dates against each
other, so a response record `"2024.05.10-2024.01.15"` produces a returned
window with `end < start`, refuting the claimed invariant `start <= end`. -/
theorem c9_counterexample :
    (get_dictation_and_reading_times envC9bad "anlage1" "serge1").2 = .ok (some [wC9bad]) ∧
    wC9bad.«end» < wC9bad.start :=
  ⟨rfl, by decide⟩

/-- A record's two encoded dates are in order (vacuously true when the
record does not parse). -/
def recOrderedB (r : Json) : Bool :=
  match jget r "LEOIDOSZAK" with
  | .ok (Json.str s) =>
    match strptimeYMD (s.data.take 10), strptimeYMD ((s.data.drop 11).take 11) with
    | some d1, some d2 => decide (dateUS3 d1 ≤ dateUS3 d2)
    | _, _ => true
  | _ => true

/-- C9 amended: every window `get_dictation_and_reading_times` returns
satisfies `start <= end` provided every record of the response encodes its
two dates in order — the construction itself enforces nothing (windows are
immutable values once built: in this embedding no operation rebuilds or
alters their fields). -/
theorem c9_amended_invariant :
    ∀ (env : SessionEnv) (loc ser : String) (lst : List ReadingTime),
      (∀ (j : Json) (recs : List Json), env.readingRespBody = .ok (some j) →
        (jget j "DataModel" >>= fun dm => jget dm "LeolvDiktIdoszakok") =
          .ok (Json.arr recs) →
        ∀ r ∈ recs, recOrderedB r = true) →
      (get_dictation_and_reading_times env loc ser).2 = .ok (some lst) →
      ∀ w ∈ lst, w.start ≤ w.«end» := by
  intro env loc ser lst hord h w hw
  obtain ⟨j, recs, ws, hresp, hchain, hmap, hlst⟩ := get_dict_success_inv env loc ser lst h
  subst hlst
  have hw' : w ∈ ws := ((List.perm_insertionSort rle ws).mem_iff).mp hw
  obtain ⟨r, hr, hpr⟩ := mapM_ok_mem parseReading recs ws hmap w hw'
  obtain ⟨s, d1, d2, hleo, hd1, hd2, hstart, hend, _⟩ := parseReading_ok_inv r w hpr
  have hob := hord j recs hresp hchain r hr
  simp only [recOrderedB, hleo, hd1, hd2] at hob
  rw [hstart, hend]
  exact of_decide_eq_true hob

/-- A raw record with its two encoded dates in order. -/
def recC9ok : Json :=
  Json.obj [("LEOIDOSZAK", Json.str "2024.01.01-2024.01.05"), ("LEOMOD", Json.str "02")]

/-- The C9 witness response JSON. -/
def jC9resp : Json :=
  Json.obj [("DataModel", Json.obj [("LeolvDiktIdoszakok", Json.arr [recC9ok])])]

/-- Environment whose reading-times response holds only `recC9ok`. -/
def envC9ok : SessionEnv :=
  { rootPage := .ok ""
    loginPageBody := .ok tokenHtml
    loginRespBody := .ok (some loginOkJson)
    locationsBody := .ok none
    readingPageBody := .ok tokenHtml
    readingRespBody := .ok (some jC9resp) }

/-- The list returned on `envC9ok`. -/
def lstC9 : List ReadingTime := [⟨dateUS 2024 1 1, dateUS 2024 1 5, Json.str "02"⟩]

/-- The single window of the C9 witness list. -/
def wC9ok : ReadingTime := ⟨dateUS 2024 1 1, dateUS 2024 1 5, Json.str "02"⟩

/-- C9 witness: the amended theorem applied to a concrete in-order record. -/
theorem c9_amended_invariant_witness : wC9ok.start ≤ wC9ok.«end» := by
  refine c9_amended_invariant envC9ok "anlage1" "serge1" lstC9 ?_ rfl wC9ok
    (List.mem_cons_self _ _)
  intro j recs hresp hchain r hr
  have hj : j = jC9resp := by
    have hx : envC9ok.readingRespBody = .ok (some jC9resp) := rfl
    rw [hx] at hresp
    exact (Option.some.inj (Except.ok.inj hresp)).symm
  subst hj
  have hrecs : recs = [recC9ok] := by
    have hx : (jget jC9resp "DataModel" >>= fun dm => jget dm "LeolvDiktIdoszakok") =
        .ok (Json.arr [recC9ok]) := rfl
    rw [hx] at hchain
    exact (Json.arr.inj (Except.ok.inj hchain)).symm
  subst hrecs
  simp only [List.mem_singleton] at hr
  subst hr
  decide

/-! ### C8 -/

/-- A bind's trace counts the events of both parts (or only the first on an
early exception). -/
theorem count_bind {α β : Type} (x : M α) (f : α → M β) {a : Ev}
    (hx : x.1.count a = 0) (hf : ∀ b, ((f b).1).count a = 0) :
    ((M.bind x f).1).count a = 0 := by
  obtain ⟨t, r⟩ := x
  cases r with
  | error e => exact hx
  | ok b => simp [M.bind, List.count_append, hx, hf b]

/-- Raising records no resource event. -/
theorem count_throw {α : Type} (e : Err) (a : Ev) :
    (((M.throw e : M α)).1).count a = 0 := rfl

/-- Lifting a pure computation records no resource event. -/
theorem count_liftE {α : Type} (r : Except Err α) (a : Ev) :
    ((liftE r).1).count a = 0 := rfl

/-- Returning records no resource event. -/
theorem count_pure {α : Type} (x : α) (a : Ev) :
    (((pure x : M α)).1).count a = 0 := rfl

/-- A network call records no session open/close event. -/
theorem count_netStep {α : Type} (r : Except Err α) (a : Ev)
    (ha : (Ev.netCall == a) = false) : ((netStep r).1).count a = 0 := by
  simp [netStep, List.count_cons, ha]

/-- `post_login` records only network events. -/
theorem count_post_login (env : SessionEnv) (a : Ev)
    (ha : (Ev.netCall == a) = false) : ((post_login env).1).count a = 0 := by
  unfold post_login
  refine count_bind _ _ (count_netStep _ _ ha) ?_
  intro body
  split
  · exact count_throw _ _
  · refine count_bind _ _ (count_netStep _ _ ha) ?_
    intro resp
    split
    · exact count_throw _ _
    · exact count_liftE _ _

/-- `get_locations_and_serial_numbers` records only network events. -/
theorem count_get_locations_and_serial_numbers (env : SessionEnv) (a : Ev)
    (ha : (Ev.netCall == a) = false) :
    ((get_locations_and_serial_numbers env).1).count a = 0 := by
  unfold get_locations_and_serial_numbers
  refine count_bind _ _ (count_netStep _ _ ha) ?_
  intro resp
  split
  · exact count_throw _ _
  · exact count_pure _ _

/-- The session-level reading-times fetch records only network events. -/
theorem count_sess_get (env : SessionEnv) (loc ser : String) (a : Ev)
    (ha : (Ev.netCall == a) = false) :
    ((sess_get_dictation_and_reading_times env loc ser).1).count a = 0 := by
  unfold sess_get_dictation_and_reading_times
  refine count_bind _ _ (count_netStep _ _ ha) ?_
  intro text
  split
  · exact count_throw _ _
  · refine count_bind _ _ (count_netStep _ _ ha) ?_
    intro resp
    split
    · exact count_throw _ _
    · exact count_pure _ _

/-- The `get_locations_and_meters` suite records only network events. -/
theorem count_locations_body (env : SessionEnv) (a : Ev)
    (ha : (Ev.netCall == a) = false) :
    ((get_locations_and_meters_body env).1).count a = 0 := by
  unfold get_locations_and_meters_body get_root_page
  refine count_bind _ _ (count_netStep _ _ ha) ?_
  intro _root
  refine count_bind _ _ (count_post_login env a ha) ?_
  intro loginVal
  split
  · refine count_bind _ _ (count_get_locations_and_serial_numbers env a ha) ?_
    intro locations
    refine count_bind _ _ (count_liftE _ _) ?_
    intro fh
    refine count_bind _ _ (count_liftE _ _) ?_
    intro tf
    split
    · refine count_bind _ _ (count_liftE _ _) ?_
      intro lms
      exact count_pure _ _
    · exact count_throw _ _
  · exact count_pure _ _

/-- The `get_dictation_and_reading_times` suite records only network
events. -/
theorem count_dict_body (env : SessionEnv) (loc ser : String) (a : Ev)
    (ha : (Ev.netCall == a) = false) :
    ((get_dictation_and_reading_times_body env loc ser).1).count a = 0 := by
  unfold get_dictation_and_reading_times_body get_root_page
  refine count_bind _ _ (count_netStep _ _ ha) ?_
  intro _root
  refine count_bind _ _ (count_post_login env a ha) ?_
  intro loginVal
  split
  · refine count_bind _ _ (count_sess_get env loc ser a ha) ?_
    intro reading_data
    refine count_bind _ _ (count_liftE _ _) ?_
    intro dm
    refine count_bind _ _ (count_liftE _ _) ?_
    intro idx
    split
    · refine count_bind _ _ (count_liftE _ _) ?_
      intro ws
      exact count_pure _ _
    · exact count_throw _ _
  · exact count_pure _ _

/-- A session scope with a close-free suite closes exactly once. -/
theorem close_once_of_body {α : Type} (b : M α) (hb : b.1.count Ev.closeS = 0) :
    ((withSession b).1).count Ev.closeS = 1 := by
  show (Ev.openS :: (b.1 ++ [Ev.closeS])).count Ev.closeS = 1
  rw [List.count_cons, List.count_append, hb]
  decide

/-- A session scope with an open-free suite opens exactly once. -/
theorem open_once_of_body {α : Type} (b : M α) (hb : b.1.count Ev.openS = 0) :
    ((withSession b).1).count Ev.openS = 1 := by
  show (Ev.openS :: (b.1 ++ [Ev.closeS])).count Ev.openS = 1
  rw [List.count_cons, List.count_append, hb]
  decide

/-- A session scope always ends by closing the session. -/
theorem last_close_of_body {α : Type} (b : M α) :
    ((withSession b).1).getLast? = some Ev.closeS := by
  show ((Ev.openS :: b.1) ++ [Ev.closeS]).getLast? = some Ev.closeS
  exact List.getLast?_concat _

/-- C8: whatever the oracle answers — success, failed login, a network
failure at any call, a missing token, undecodable JSON, or a parse error
mid-sequence — each controller operation's trace opens the session exactly
once, closes it exactly once, and the close is the final event: no
execution path leaves the session open or releases it twice. -/
theorem c8_session_released_once :
    ∀ (env : SessionEnv) (loc ser : String),
      ((get_locations_and_meters env).1.count Ev.closeS = 1 ∧
        (get_locations_and_meters env).1.count Ev.openS = 1 ∧
        (get_locations_and_meters env).1.getLast? = some Ev.closeS) ∧
      ((get_dictation_and_reading_times env loc ser).1.count Ev.closeS = 1 ∧
        (get_dictation_and_reading_times env loc ser).1.count Ev.openS = 1 ∧
        (get_dictation_and_reading_times env loc ser).1.getLast? = some Ev.closeS) := by
  intro env loc ser
  refine ⟨⟨?_, ?_, ?_⟩, ⟨?_, ?_, ?_⟩⟩
  · exact close_once_of_body _ (count_locations_body env Ev.closeS (by decide))
  · exact open_once_of_body _ (count_locations_body env Ev.openS (by decide))
  · exact last_close_of_body _
  · exact close_once_of_body _ (count_dict_body env loc ser Ev.closeS (by decide))
  · exact open_once_of_body _ (count_dict_body env loc ser Ev.openS (by decide))
  · exact last_close_of_body _

/-! ### C6 -/

/-- The region the greedy capture may range over when the pattern's literal
prefix is anchored at position `i`: the characters after the prefix up to
the next newline (`.` does not match `'\n'`). -/
def lineAt (s : List Char) (i : Nat) : List Char :=
  ((s.drop i).drop tokenPrefixPattern.length).takeWhile (fun c => c ≠ '\n')

/-- The token regex has a full match starting at position `i`: the literal
prefix occurs there and the literal suffix occurs somewhere in the line
region after it. -/
def occAt (s : List Char) (i : Nat) : Bool :=
  tokenPrefixPattern.isPrefixOf (s.drop i) &&
  ((List.range ((lineAt s i).length + 1)).any
    (fun p => tokenSuffixPattern.isPrefixOf ((lineAt s i).drop p)))

/-- `t` is the greedy capture of a match anchored at `i`: the line region up
to the LAST occurrence of the literal suffix. -/
def capSpec (s : List Char) (i : Nat) (t : List Char) : Prop :=
  ∃ j, tokenSuffixPattern.isPrefixOf ((lineAt s i).drop j) = true ∧
    (∀ j', j' ≤ (lineAt s i).length → j < j' →
      tokenSuffixPattern.isPrefixOf ((lineAt s i).drop j') = false) ∧
    t = (lineAt s i).take j

/-- The literal prefix never matches at the end of the text. -/
theorem p1_prefix_nil : tokenPrefixPattern.isPrefixOf ([] : List Char) = false := by decide

/-- The literal suffix never matches at the end of the text. -/
theorem p2_prefix_nil : tokenSuffixPattern.isPrefixOf ([] : List Char) = false := by decide

/-- The literal suffix never matches beyond the end of a list. -/
theorem p2_prefix_of_ge (l : List Char) (j : Nat) (h : l.length ≤ j) :
    tokenSuffixPattern.isPrefixOf (l.drop j) = false := by
  rw [List.drop_eq_nil_of_le h]
  exact p2_prefix_nil

/-- A match never starts beyond the end of the text. -/
theorem occAt_of_ge (s : List Char) (i : Nat) (h : s.length ≤ i) :
    occAt s i = false := by
  unfold occAt
  rw [List.drop_eq_nil_of_le h, p1_prefix_nil]
  rfl

/-- `lastSuffixIndex` answers `none` exactly when the suffix occurs
nowhere. -/
theorem lastSuffixIndex_none (l : List Char) :
    lastSuffixIndex l = none ↔
      ∀ p, tokenSuffixPattern.isPrefixOf (l.drop p) = false := by
  induction l with
  | nil =>
    simp only [lastSuffixIndex, true_iff]
    intro p
    rw [List.drop_nil]
    exact p2_prefix_nil
  | cons c rest ih =>
    constructor
    · intro h p
      unfold lastSuffixIndex at h
      split at h
      · simp at h
      · rename_i hrest
        split at h
        · simp at h
        · rename_i hp
          have hp' : tokenSuffixPattern.isPrefixOf (c :: rest) = false := by
            cases hx : tokenSuffixPattern.isPrefixOf (c :: rest)
            · rfl
            · exact absurd hx hp
          cases p with
          | zero => exact hp'
          | succ p' =>
            rw [List.drop_succ_cons]
            exact (ih.mp hrest) p'
    · intro h
      unfold lastSuffixIndex
      rw [ih.mpr (fun p => by have hp := h (p + 1); rwa [List.drop_succ_cons] at hp)]
      have h0 := h 0
      rw [List.drop_zero] at h0
      rw [h0]
      rfl

/-- A `some` answer of `lastSuffixIndex` is an occurrence of the suffix and
the rightmost one. -/
theorem lastSuffixIndex_spec (l : List Char) (j : Nat)
    (h : lastSuffixIndex l = some j) :
    tokenSuffixPattern.isPrefixOf (l.drop j) = true ∧
    ∀ j', j < j' → tokenSuffixPattern.isPrefixOf (l.drop j') = false := by
  induction l generalizing j with
  | nil => simp [lastSuffixIndex] at h
  | cons c rest ih =>
    unfold lastSuffixIndex at h
    split at h
    · rename_i j0 hrest
      injection h with h
      subst h
      obtain ⟨h1, h2⟩ := ih j0 hrest
      refine ⟨h1, ?_⟩
      intro j' hj'
      cases j' with
      | zero => omega
      | succ j'' =>
        rw [List.drop_succ_cons]
        exact h2 j'' (by omega)
    · rename_i hrest
      split at h
      · rename_i hp
        injection h with h
        subst h
        refine ⟨hp, ?_⟩
        intro j' hj'
        cases j' with
        | zero => omega
        | succ j'' =>
          rw [List.drop_succ_cons]
          exact (lastSuffixIndex_none rest).mp hrest j''
      · simp at h

/-- The greedy capture at a fixed anchor is unique. -/
theorem capSpec_unique (s : List Char) (i : Nat) (t t' : List Char)
    (h : capSpec s i t) (h' : capSpec s i t') : t = t' := by
  obtain ⟨j, hj1, hj2, rfl⟩ := h
  obtain ⟨j', hj1', hj2', rfl⟩ := h'
  have hjlen : j ≤ (lineAt s i).length := by
    by_contra hc
    push_neg at hc
    rw [p2_prefix_of_ge _ _ (le_of_lt hc)] at hj1
    simp at hj1
  have hjlen' : j' ≤ (lineAt s i).length := by
    by_contra hc
    push_neg at hc
    rw [p2_prefix_of_ge _ _ (le_of_lt hc)] at hj1'
    simp at hj1'
  have hjj : j = j' := by
    rcases lt_trichotomy j j' with hlt | heq | hgt
    · have hx := hj2 j' hjlen' hlt
      rw [hj1'] at hx
      simp at hx
    · exact heq
    · have hx := hj2' j hjlen hgt
      rw [hj1] at hx
      simp at hx
  rw [hjj]

/-- The anchored matcher succeeds exactly on an anchored occurrence, and
returns exactly the greedy capture. -/
theorem tryMatchHere_spec (s : List Char) (t : List Char) :
    tryMatchHere s = some t ↔ occAt s 0 = true ∧ capSpec s 0 t := by
  have hline : ((s.drop tokenPrefixPattern.length).takeWhile (fun c => c ≠ '\n')) =
      lineAt s 0 := by
    unfold lineAt
    rw [List.drop_zero]
  unfold tryMatchHere
  by_cases hp : tokenPrefixPattern.isPrefixOf s = true
  · rw [if_pos hp, hline]
    constructor
    · intro h
      cases hls : lastSuffixIndex (lineAt s 0) with
      | none => rw [hls] at h; simp at h
      | some j =>
        rw [hls] at h
        injection h with h
        obtain ⟨h1, h2⟩ := lastSuffixIndex_spec _ _ hls
        have hjlen : j < (lineAt s 0).length + 1 := by
          by_contra hc
          push_neg at hc
          rw [p2_prefix_of_ge _ _ (by omega)] at h1
          simp at h1
        constructor
        · unfold occAt
          rw [List.drop_zero, hp, Bool.true_and, List.any_eq_true]
          exact ⟨j, List.mem_range.mpr hjlen, h1⟩
        · exact ⟨j, h1, fun j' _ hj' => h2 j' hj', h.symm⟩
    · rintro ⟨hocc, j, hj1, hj2, ht⟩
      cases hls : lastSuffixIndex (lineAt s 0) with
      | none =>
        have hx := (lastSuffixIndex_none _).mp hls j
        rw [hx] at hj1
        simp at hj1
      | some j0 =>
        obtain ⟨h1, h2⟩ := lastSuffixIndex_spec _ _ hls
        have hjlen : j ≤ (lineAt s 0).length := by
          by_contra hc
          push_neg at hc
          rw [p2_prefix_of_ge _ _ (le_of_lt hc)] at hj1
          simp at hj1
        have hjlen0 : j0 ≤ (lineAt s 0).length := by
          by_contra hc
          push_neg at hc
          rw [p2_prefix_of_ge _ _ (le_of_lt hc)] at h1
          simp at h1
        have hjj : j = j0 := by
          rcases lt_trichotomy j j0 with hlt | heq | hgt
          · have hx := hj2 j0 hjlen0 hlt
            rw [hx] at h1
            simp at h1
          · exact heq
          · have hx := h2 j hgt
            rw [hj1] at hx
            simp at hx
        subst hjj
        simp [ht]
  · rw [if_neg hp]
    have hp' : tokenPrefixPattern.isPrefixOf s = false := by
      cases hx : tokenPrefixPattern.isPrefixOf s
      · rfl
      · exact absurd hx hp
    constructor
    · intro h
      simp at h
    · rintro ⟨hocc, _⟩
      unfold occAt at hocc
      rw [List.drop_zero, hp'] at hocc
      simp at hocc

/-- Completeness of the anchored matcher: an anchored occurrence always
yields a capture. -/
theorem tryMatchHere_complete (s : List Char) (h : occAt s 0 = true) :
    ∃ t, tryMatchHere s = some t := by
  unfold occAt at h
  rw [List.drop_zero, Bool.and_eq_true] at h
  obtain ⟨hp, hany⟩ := h
  have hline : ((s.drop tokenPrefixPattern.length).takeWhile (fun c => c ≠ '\n')) =
      lineAt s 0 := by
    unfold lineAt
    rw [List.drop_zero]
  unfold tryMatchHere
  rw [if_pos hp, hline]
  cases hls : lastSuffixIndex (lineAt s 0) with
  | some j => exact ⟨_, rfl⟩
  | none =>
    rw [List.any_eq_true] at hany
    obtain ⟨p, _, hp_pre⟩ := hany
    have hx := (lastSuffixIndex_none _).mp hls p
    rw [hx] at hp_pre
    simp at hp_pre

/-- A match anchored past the head of a cons is a match in the tail. -/
theorem occAt_succ_cons (c : Char) (s : List Char) (i : Nat) :
    occAt (c :: s) (i + 1) = occAt s i := rfl

/-- The capture of a match anchored past the head of a cons is the capture
in the tail. -/
theorem capSpec_succ_cons (c : Char) (s : List Char) (i : Nat) (t : List Char) :
    capSpec (c :: s) (i + 1) t ↔ capSpec s i t := Iff.rfl

/-- The search of the embedded `re.search` returns exactly the greedy
capture of the leftmost full match (and `none` exactly when no full match
exists anywhere). -/
theorem searchTok_spec : ∀ (s t : List Char), searchTok s = some t ↔
    ∃ i, occAt s i = true ∧ (∀ i', i' < i → occAt s i' = false) ∧ capSpec s i t := by
  intro s
  induction s with
  | nil =>
    intro t
    constructor
    · intro h
      rw [show searchTok ([] : List Char) = none from rfl] at h
      exact absurd h (by simp)
    · rintro ⟨i, hocc, _, _⟩
      have hx : occAt ([] : List Char) i = false := by
        unfold occAt
        rw [List.drop_nil, p1_prefix_nil]
        rfl
      rw [hx] at hocc
      simp at hocc
  | cons c rest ih =>
    intro t
    cases htm : tryMatchHere (c :: rest) with
    | some t0 =>
      have hred : searchTok (c :: rest) = some t0 := by
        unfold searchTok
        rw [htm]
      rw [hred]
      obtain ⟨hocc0, hcap0⟩ := (tryMatchHere_spec _ _).mp htm
      constructor
      · intro h
        injection h with h
        subst h
        exact ⟨0, hocc0, fun i' h' => absurd h' (Nat.not_lt_zero i'), hcap0⟩
      · rintro ⟨i, hocc, hmin, hcap⟩
        cases i with
        | zero =>
          rw [capSpec_unique _ _ _ _ hcap0 hcap]
        | succ i' =>
          have h0 := hmin 0 (Nat.succ_pos i')
          rw [h0] at hocc0
          simp at hocc0
    | none =>
      have hred : searchTok (c :: rest) = searchTok rest := by
        show (match tryMatchHere (c :: rest) with
          | some t => some t
          | none => searchTok rest) = searchTok rest
        rw [htm]
      rw [hred, ih t]
      constructor
      · rintro ⟨i, h1, h2, h3⟩
        refine ⟨i + 1, h1, ?_, h3⟩
        intro i' hi'
        cases i' with
        | zero =>
          cases hx : occAt (c :: rest) 0 with
          | false => rfl
          | true =>
            obtain ⟨t', ht'⟩ := tryMatchHere_complete (c :: rest) hx
            rw [htm] at ht'
            simp at ht'
        | succ i'' => exact h2 i'' (Nat.lt_of_succ_lt_succ hi')
      · rintro ⟨i, h1, h2, h3⟩
        cases i with
        | zero =>
          obtain ⟨t', ht'⟩ := tryMatchHere_complete (c :: rest) h1
          rw [htm] at ht'
          simp at ht'
        | succ i' =>
          exact ⟨i', h1, fun k hk => h2 (k + 1) (Nat.succ_lt_succ hk), h3⟩

/-- When no full match exists up to the end of the text, the search fails. -/
theorem searchTok_none_of_no_occ (s : List Char)
    (h : ∀ i, i ≤ s.length → occAt s i = false) : searchTok s = none := by
  cases hx : searchTok s with
  | none => rfl
  | some t =>
    obtain ⟨i, hocc, _, _⟩ := (searchTok_spec s t).mp hx
    by_cases hi : i ≤ s.length
    · rw [h i hi] at hocc
      simp at hocc
    · push_neg at hi
      rw [occAt_of_ge s i (le_of_lt hi)] at hocc
      simp at hocc

/-- C6: token extraction returns the capture of the first (leftmost, greedy)
occurrence of the hidden-input pattern — `occAt`/`capSpec` state occurrence
and greedy capture for the literal pattern
`<input name="__RequestVerificationToken" type="hidden" value="(.*)" />` —
and when no such input is present both token-scraping call sites
(fvm_session.py lines 74-78 and 131-136) fail with the spec's `ParseError`
(Python raises `AttributeError` on `None.group(1)`). -/
theorem c6_token_extraction :
    (∀ (s t : List Char), searchTok s = some t ↔
      ∃ i, occAt s i = true ∧ (∀ i', i' < i → occAt s i' = false) ∧ capSpec s i t) ∧
    (∀ (env : SessionEnv) (body : String), env.loginPageBody = .ok body →
      (∀ i, i ≤ body.data.length → occAt body.data i = false) →
      (post_login env).2 = .error Err.parseError) ∧
    (∀ (env : SessionEnv) (loc ser : String) (body : String),
      env.readingPageBody = .ok body →
      (∀ i, i ≤ body.data.length → occAt body.data i = false) →
      (sess_get_dictation_and_reading_times env loc ser).2 = .error Err.parseError) := by
  refine ⟨searchTok_spec, ?_, ?_⟩
  · intro env body h1 h2
    have htok : extractToken body = none := by
      unfold extractToken
      rw [searchTok_none_of_no_occ body.data h2]
      rfl
    unfold post_login
    simp only [M_bind_def, M_snd_bind, netStep_snd, h1, htok, M.throw]
  · intro env loc ser body h1 h2
    have htok : extractToken body = none := by
      unfold extractToken
      rw [searchTok_none_of_no_occ body.data h2]
      rfl
    unfold sess_get_dictation_and_reading_times
    simp only [M_bind_def, M_snd_bind, netStep_snd, h1, htok, M.throw]

/-- Environment whose two token-source pages contain no hidden-input
pattern. -/
def envC6noTok : SessionEnv :=
  { rootPage := .ok ""
    loginPageBody := .ok "no token here"
    loginRespBody := .ok none
    locationsBody := .ok none
    readingPageBody := .ok "no token here"
    readingRespBody := .ok none }

/-- C6 witness: the theorem applied to the spec's `abc123` example body and
to a concrete token-free body at both call sites. -/
theorem c6_token_extraction_witness :
    searchTok tokenHtml.data = some "abc123".data ∧
    (post_login envC6noTok).2 = .error Err.parseError ∧
    (sess_get_dictation_and_reading_times envC6noTok "anlage1" "serge1").2 =
      .error Err.parseError := by
  refine ⟨?_, ?_, ?_⟩
  · exact (c6_token_extraction.1 tokenHtml.data "abc123".data).mpr
      ⟨0, by decide, fun i' h' => absurd h' (Nat.not_lt_zero i'),
        ⟨6, by decide, by decide, by decide⟩⟩
  · exact c6_token_extraction.2.1 envC6noTok "no token here" rfl (by decide)
  · exact c6_token_extraction.2.2 envC6noTok "anlage1" "serge1" "no token here" rfl
      (by decide)
